import Mathlib

/-!
Shallow embedding of `src/src/ReinSeghal/ReinDFRPXSec.cxx` (GENIE
Rein diffractive pion production cross-section model) and proofs of
properties of its `XSec`, `Integral`, `ValidProcess` and
`ValidKinematics` members.

C++ `double` arithmetic is modelled by exact real arithmetic over `ℝ`;
framework constants (`Conventions/Constants.h`, `Conventions/Controls.h`)
and the external collaborators (`utils::hadxs::TotalPionNucleonXSec`,
`utils::kinematics::Jacobian`), which are not part of the excerpted
sources, are supplied as parameters in an environment record.
-/

set_option maxHeartbeats 1000000

namespace ReinDFR

/-- The `Kinematics` record of an interaction: the two scaling variables
`x` (Bjorken x) and `y` (inelasticity) read by `kinematics.x()` /
`kinematics.y()` and written by `Setx` / `Sety`. -/
structure Kinematics where
  x : ℝ
  y : ℝ

/-- The `Target` record: proton count `Z()`, neutron count `N()` and the
identity of the struck nucleon (`pdg::IsProton(target.HitNucPdg())`). -/
structure Target where
  Z : ℤ
  N : ℤ
  hitNucIsProton : Bool

/-- The `InitialState` record: probe energy in the hit-nucleon rest frame
(`ProbeE(kRfHitNucRest)`) and the target. -/
structure InitialState where
  probeE : ℝ
  tgt : Target

/-- The `Interaction` aggregate: initial state, kinematics, the process
type test `ProcInfo().IsDiffractive()`, and the `TestBit` flags
`kISkipProcessChk`, `kISkipKinematicChk`, `kIAssumeFreeNucleon`. -/
structure Interaction where
  initState : InitialState
  kine : Kinematics
  isDiffractive : Bool
  skipProcessChk : Bool
  skipKinematicChk : Bool
  assumeFreeNucleon : Bool

/-- The `KinePhaseSpace_t` enumeration, reduced to the distinctions the
code makes: the canonical tag `kPSxyfE` tested by `kps==kPSxyfE`, and
non-canonical tags (for which a Jacobian transform is applied). -/
inductive KinePhaseSpace_t where
  | kPSxyfE
  | kPSxytfE
  | kPSother
deriving DecidableEq

/-- Modelled from the spec: the framework constants and external
collaborators used by `ReinDFRPXSec` that live outside the excerpted
sources.  `kNucleonMass`, `kGF2` (squared Fermi constant), `kPi3` (π³),
`kPionMass`, `kMuonMass` come from `Conventions/Constants.h`;
`kASmallNum` ("a small numerical epsilon") from `Conventions/Controls.h`;
`sTot` is the hadronic cross-section table
`utils::hadxs::TotalPionNucleonXSec` ("maps a secondary-particle energy
to a total scattering cross section against a nucleon ... treated as a
pure function"); `jacobian` is `utils::kinematics::Jacobian`
("a strictly positive multiplicative factor converting a differential
cross section between two kinematic parameterizations"). -/
structure Env where
  kNucleonMass : ℝ
  kGF2 : ℝ
  kPi3 : ℝ
  kPionMass : ℝ
  kMuonMass : ℝ
  kASmallNum : ℝ
  sTot : ℝ → ℝ
  jacobian : Interaction → KinePhaseSpace_t → KinePhaseSpace_t → ℝ

/-- The two configured model parameters `fMa` (axial mass scale `Ma`)
and `fBeta` (slope parameter `beta`), loaded once by `LoadConfig`. -/
structure ModelParams where
  fMa : ℝ
  fBeta : ℝ

/-- `ReinDFRPXSec::ValidProcess`: true if the `kISkipProcessChk` bit is
set, otherwise true exactly when the process is diffractive. -/
def ValidProcess (i : Interaction) : Bool :=
  if i.skipProcessChk then true
  else if i.isDiffractive then true
  else false

/-- `ReinDFRPXSec::ValidKinematics`: true if the `kISkipKinematicChk`
bit is set, otherwise (in this model) also true. -/
def ValidKinematics (i : Interaction) : Bool :=
  if i.skipKinematicChk then true
  else true

/-- `interaction->KinePtr()->Setx(xc); interaction->KinePtr()->Sety(yc)`:
overwrite the kinematic scaling variables, leaving every other field of
the interaction unchanged. -/
def setXY (i : Interaction) (xc yc : ℝ) : Interaction :=
  { i with kine := { x := xc, y := yc } }

noncomputable section

/-- The semi-analytic t-integral block of `ReinDFRPXSec::XSec` (the
`kps==kPSxyfE` branch): `tmin = (0.5*kPionMass2/Epi)^2`, `tmax = 99.0`,
and `(exp(-b*tmin) - exp(-b*tmax))/b` when `tmin < tmax`, else `0`.
(`kPionMass2` is the framework's precomputed square of `kPionMass`;
the double literal `99.0` is the real number `99`.) -/
def tIntegral (env : Env) (b Epi : ℝ) : ℝ :=
  let tmin := (0.5 * env.kPionMass ^ 2 / Epi) ^ 2
  let tmax : ℝ := 99
  if tmin < tmax then (Real.exp (-b * tmin) - Real.exp (-b * tmax)) / b
  else 0

/-- `ReinDFRPXSec::XSec`: the differential cross section.  Mirrors the
source line by line: the two validity guards, the kinematic quantities,
the base value `Gf*E*fp2*(1-y)*propg*sTot2`, the t-integral factor in
the canonical phase space, the Jacobian in any other phase space, and
the final scaling by the number of scattering centers unless the
`kIAssumeFreeNucleon` bit is set. -/
def XSec (env : Env) (p : ModelParams) (i : Interaction)
    (kps : KinePhaseSpace_t) : ℝ :=
  if ¬ ValidProcess i then 0
  else if ¬ ValidKinematics i then 0
  else
    let E := i.initState.probeE
    let x := i.kine.x
    let y := i.kine.y
    let Q2 := 2 * x * y * env.kNucleonMass * E
    let Gf := env.kGF2 * env.kNucleonMass / (16 * env.kPi3)
    let fp := 0.93 * env.kPionMass
    let fp2 := fp ^ 2
    let Epi := y * E
    let ma2 := p.fMa ^ 2
    let propg := (ma2 / (ma2 + Q2)) ^ 2
    let sTot := env.sTot Epi
    let sTot2 := sTot ^ 2
    let b := p.fBeta
    let xsec1 := Gf * E * fp2 * (1 - y) * propg * sTot2
    let xsec2 :=
      if kps = KinePhaseSpace_t.kPSxyfE then xsec1 * tIntegral env b Epi
      else xsec1
    let xsec3 :=
      if kps ≠ KinePhaseSpace_t.kPSxyfE then
        xsec2 * env.jacobian i KinePhaseSpace_t.kPSxyfE kps
      else xsec2
    if i.assumeFreeNucleon then xsec3
    else
      let NNucl : ℤ :=
        if i.initState.tgt.hitNucIsProton then i.initState.tgt.Z
        else i.initState.tgt.N
      xsec3 * (NNucl : ℝ)

/-- State-passing form of a call to the `const` member `XSec`: the value
together with the (unchanged) interaction. -/
def XSecS (env : Env) (p : ModelParams) (kps : KinePhaseSpace_t)
    (i : Interaction) : ℝ × Interaction :=
  (XSec env p i kps, i)

/-- `Range1D_t x(kASmallNum, 1.-kASmallNum)`: lower x bound. -/
def xMin (env : Env) : ℝ := env.kASmallNum

/-- `Range1D_t x(kASmallNum, 1.-kASmallNum)`: upper x bound. -/
def xMax (env : Env) : ℝ := 1 - env.kASmallNum

/-- `Range1D_t y(kPionMass/E + kASmallNum, ...)`: lower y bound. -/
def yMin (env : Env) (E : ℝ) : ℝ := env.kPionMass / E + env.kASmallNum

/-- `Range1D_t y(..., 1.-ml/E - kASmallNum)` with `ml = kMuonMass`:
upper y bound. -/
def yMax (env : Env) (E : ℝ) : ℝ := 1 - env.kMuonMass / E - env.kASmallNum

/-- The grid resolution `nx = ny = 300` of `ReinDFRPXSec::Integral`. -/
def nGrid : ℕ := 300

/-- `dx = (x.max - x.min)/(nx-1)`. -/
def dxGrid (env : Env) : ℝ := (xMax env - xMin env) / ((nGrid : ℝ) - 1)

/-- `dy = (y.max - y.min)/(ny-1)`. -/
def dyGrid (env : Env) (E : ℝ) : ℝ :=
  (yMax env E - yMin env E) / ((nGrid : ℝ) - 1)

/-- `xc = x.min + ix*dx`: the x coordinate of grid column `ix`. -/
def xGrid (env : Env) (ix : ℕ) : ℝ := xMin env + (ix : ℝ) * dxGrid env

/-- `yc = y.min + iy*dy`: the y coordinate of grid row `iy`. -/
def yGrid (env : Env) (E : ℝ) (iy : ℕ) : ℝ :=
  yMin env E + (iy : ℝ) * dyGrid env E

/-- The body of the inner (`iy`) loop of `ReinDFRPXSec::Integral`: set
the interaction's x and y in place to the grid coordinates, then
accumulate `dx*dy*XSec(interaction, kPSxyfE)`. -/
def innerLoop (env : Env) (p : ModelParams) (E xc : ℝ)
    (acc : ℝ × Interaction) (iy : ℕ) : ℝ × Interaction :=
  let st := setXY acc.2 xc (yGrid env E iy)
  (acc.1 + dxGrid env * dyGrid env E * XSec env p st KinePhaseSpace_t.kPSxyfE,
   st)

/-- State-passing form of `ReinDFRPXSec::Integral`: returns the
accumulated cross section together with the final state of the shared
interaction that the loops mutate in place.  Returns `(0, i)`
immediately when the y-range is empty (`y.max <= y.min`). -/
def IntegralS (env : Env) (p : ModelParams) (i : Interaction) :
    ℝ × Interaction :=
  let E := i.initState.probeE
  if yMax env E ≤ yMin env E then (0, i)
  else
    (List.range nGrid).foldl
      (fun acc ix =>
        (List.range nGrid).foldl (innerLoop env p E (xGrid env ix)) acc)
      (0, i)

/-- `ReinDFRPXSec::Integral`: the total cross section (the value
component of the state-passing form). -/
def Integral (env : Env) (p : ModelParams) (i : Interaction) : ℝ :=
  (IntegralS env p i).1

/-- Concrete environment used to instantiate hypotheses in witnesses. -/
def env0 : Env where
  kNucleonMass := 1
  kGF2 := 1
  kPi3 := 1
  kPionMass := 1
  kMuonMass := 1
  kASmallNum := 1 / 100
  sTot := fun _ => 1
  jacobian := fun _ _ _ => 1

/-- Concrete model parameters used in witnesses. -/
def p0 : ModelParams := ⟨1, 1⟩

/-- Concrete interaction used in witnesses: diffractive, no skip bits,
free-nucleon bit set, probe energy 4, kinematics (1/2, 1/2). -/
def i0 : Interaction where
  initState := { probeE := 4, tgt := { Z := 2, N := 3, hitNucIsProton := true } }
  kine := { x := 1 / 2, y := 1 / 2 }
  isDiffractive := true
  skipProcessChk := false
  skipKinematicChk := false
  assumeFreeNucleon := true

end

/-! ### Basic lemmas about the embedding -/

lemma validKinematics_true (i : Interaction) : ValidKinematics i = true := by
  unfold ValidKinematics
  cases i.skipKinematicChk <;> simp

lemma validProcess_eq_or (i : Interaction) :
    ValidProcess i = (i.skipProcessChk || i.isDiffractive) := by
  unfold ValidProcess
  cases h1 : i.skipProcessChk <;> cases h2 : i.isDiffractive <;> simp

lemma setXY_setXY (i : Interaction) (a b c d : ℝ) :
    setXY (setXY i a b) c d = setXY i c d := rfl

lemma setXY_initState (i : Interaction) (a b : ℝ) :
    (setXY i a b).initState = i.initState := rfl

lemma setXY_kine_x (i : Interaction) (a b : ℝ) : (setXY i a b).kine.x = a := rfl

lemma setXY_kine_y (i : Interaction) (a b : ℝ) : (setXY i a b).kine.y = b := rfl

lemma validProcess_setXY (i : Interaction) (a b : ℝ) :
    ValidProcess (setXY i a b) = ValidProcess i := rfl

/-- Unfolding of `XSec` in the canonical phase space for an accepted
interaction with the free-nucleon bit set (shared helper). -/
lemma XSec_eval_canonical_free (env : Env) (p : ModelParams) (i : Interaction)
    (hv : ValidProcess i = true) (hfree : i.assumeFreeNucleon = true) :
    XSec env p i KinePhaseSpace_t.kPSxyfE =
      env.kGF2 * env.kNucleonMass / (16 * env.kPi3) * i.initState.probeE
        * (0.93 * env.kPionMass) ^ 2 * (1 - i.kine.y)
        * (p.fMa ^ 2 /
            (p.fMa ^ 2 +
              2 * i.kine.x * i.kine.y * env.kNucleonMass * i.initState.probeE)) ^ 2
        * env.sTot (i.kine.y * i.initState.probeE) ^ 2
        * tIntegral env p.fBeta (i.kine.y * i.initState.probeE) := by
  simp [XSec, hv, hfree, validKinematics_true]

/-- The t-integral written out as an explicit conditional. -/
lemma tIntegral_eq (env : Env) (b Epi : ℝ) :
    tIntegral env b Epi =
      if (0.5 * env.kPionMass ^ 2 / Epi) ^ 2 < 99 then
        (Real.exp (-b * (0.5 * env.kPionMass ^ 2 / Epi) ^ 2) -
          Real.exp (-b * 99)) / b
      else 0 := by
  simp [tIntegral]

/-- The t-integral is non-negative for a positive slope parameter. -/
lemma tIntegral_nonneg (env : Env) {b : ℝ} (Epi : ℝ) (hb : 0 < b) :
    0 ≤ tIntegral env b Epi := by
  rw [tIntegral_eq]
  split_ifs with h
  · apply div_nonneg _ hb.le
    have hmono : -b * 99 ≤ -b * (0.5 * env.kPionMass ^ 2 / Epi) ^ 2 := by
      nlinarith
    exact sub_nonneg.mpr (Real.exp_le_exp.mpr hmono)
  · exact le_refl 0

/-- The t-integral is strictly positive for a positive slope parameter
when the lower t limit is below the cutoff. -/
lemma tIntegral_pos_of_lt (env : Env) {b Epi : ℝ} (hb : 0 < b)
    (h : (0.5 * env.kPionMass ^ 2 / Epi) ^ 2 < 99) :
    0 < tIntegral env b Epi := by
  rw [tIntegral_eq, if_pos h]
  apply div_pos _ hb
  have hmono : -b * 99 < -b * (0.5 * env.kPionMass ^ 2 / Epi) ^ 2 := by
    nlinarith
  exact sub_pos.mpr (Real.exp_lt_exp.mpr hmono)

/-- Factored unfolding of `XSec` for an accepted interaction, for any
phase-space tag and either state of the free-nucleon flag (shared
helper). -/
lemma XSec_eval (env : Env) (p : ModelParams) (i : Interaction)
    (kps : KinePhaseSpace_t) (hv : ValidProcess i = true) :
    XSec env p i kps =
      env.kGF2 * env.kNucleonMass / (16 * env.kPi3) * i.initState.probeE
        * (0.93 * env.kPionMass) ^ 2 * (1 - i.kine.y)
        * (p.fMa ^ 2 /
            (p.fMa ^ 2 +
              2 * i.kine.x * i.kine.y * env.kNucleonMass * i.initState.probeE)) ^ 2
        * env.sTot (i.kine.y * i.initState.probeE) ^ 2
        * (if kps = KinePhaseSpace_t.kPSxyfE then
            tIntegral env p.fBeta (i.kine.y * i.initState.probeE)
           else 1)
        * (if kps ≠ KinePhaseSpace_t.kPSxyfE then
            env.jacobian i KinePhaseSpace_t.kPSxyfE kps
           else 1)
        * (if i.assumeFreeNucleon then 1
           else
             ((if i.initState.tgt.hitNucIsProton then i.initState.tgt.Z
               else i.initState.tgt.N : ℤ) : ℝ)) := by
  cases hf : i.assumeFreeNucleon <;> rcases kps <;>
    simp [XSec, hv, hf, validKinematics_true]

/-! ### Claims -/

/-- Claim C1: for every interaction accepted by the Validity Gate,
evaluated in the canonical (x,y) momentum-transfer-integrated
parameterization with the assume-free-nucleon flag set, `XSec` returns
exactly `Gf² · M/(16·π³) · E · (0.93·mπ)² · (1−y) · (Ma²/(Ma²+Q²))² ·
σπN(y·E)² · T`, with `Q² = 2·x·y·M·E`, `Eπ = y·E`, and
`T = (exp(−β·tmin) − exp(−β·tmax))/β` if `tmin < tmax`
(`tmin = (mπ²/(2·Eπ))²`, `tmax = 99` the fixed cutoff) else `T = 0`. -/
theorem XSec_canonical_free_closed_form (env : Env) (p : ModelParams)
    (i : Interaction) (hv : ValidProcess i = true)
    (hfree : i.assumeFreeNucleon = true) :
    XSec env p i KinePhaseSpace_t.kPSxyfE =
      env.kGF2 * env.kNucleonMass / (16 * env.kPi3) * i.initState.probeE
        * (0.93 * env.kPionMass) ^ 2 * (1 - i.kine.y)
        * (p.fMa ^ 2 /
            (p.fMa ^ 2 +
              2 * i.kine.x * i.kine.y * env.kNucleonMass * i.initState.probeE)) ^ 2
        * env.sTot (i.kine.y * i.initState.probeE) ^ 2
        * (if (env.kPionMass ^ 2 / (2 * (i.kine.y * i.initState.probeE))) ^ 2 < 99
           then
             (Real.exp
                (-p.fBeta *
                  (env.kPionMass ^ 2 / (2 * (i.kine.y * i.initState.probeE))) ^ 2) -
               Real.exp (-p.fBeta * 99)) / p.fBeta
           else 0) := by
  rw [XSec_eval_canonical_free env p i hv hfree, tIntegral_eq]
  have h : 0.5 * env.kPionMass ^ 2 / (i.kine.y * i.initState.probeE) =
      env.kPionMass ^ 2 / (2 * (i.kine.y * i.initState.probeE)) := by
    ring
  rw [h]

/-- Witness for C1 at the concrete input `env0`, `p0`, `i0`. -/
theorem XSec_canonical_free_closed_form_witness :
    ValidProcess i0 = true ∧ i0.assumeFreeNucleon = true ∧
    XSec env0 p0 i0 KinePhaseSpace_t.kPSxyfE =
      env0.kGF2 * env0.kNucleonMass / (16 * env0.kPi3) * i0.initState.probeE
        * (0.93 * env0.kPionMass) ^ 2 * (1 - i0.kine.y)
        * (p0.fMa ^ 2 /
            (p0.fMa ^ 2 +
              2 * i0.kine.x * i0.kine.y * env0.kNucleonMass * i0.initState.probeE)) ^ 2
        * env0.sTot (i0.kine.y * i0.initState.probeE) ^ 2
        * (if (env0.kPionMass ^ 2 / (2 * (i0.kine.y * i0.initState.probeE))) ^ 2 < 99
           then
             (Real.exp
                (-p0.fBeta *
                  (env0.kPionMass ^ 2 / (2 * (i0.kine.y * i0.initState.probeE))) ^ 2) -
               Real.exp (-p0.fBeta * 99)) / p0.fBeta
           else 0) :=
  ⟨rfl, rfl, XSec_canonical_free_closed_form env0 p0 i0 rfl rfl⟩

/-- Claim C4: for every interaction without the skip-process-check flag
whose process is not diffractive, `XSec` returns exactly `0` for every
phase-space tag and arbitrary kinematics; and `ValidProcess` is true
exactly when the skip flag is set or the process is diffractive. -/
theorem XSec_nondiffractive_eq_zero (env : Env) (p : ModelParams)
    (i : Interaction) (kps : KinePhaseSpace_t)
    (h1 : i.skipProcessChk = false) (h2 : i.isDiffractive = false) :
    XSec env p i kps = 0 ∧ ValidProcess i = false ∧
      ∀ j : Interaction, ValidProcess j = (j.skipProcessChk || j.isDiffractive) := by
  have hvp : ValidProcess i = false := by simp [ValidProcess, h1, h2]
  refine ⟨?_, hvp, validProcess_eq_or⟩
  simp [XSec, hvp]

/-- Witness for C4 at a concrete non-diffractive interaction. -/
theorem XSec_nondiffractive_eq_zero_witness :
    XSec env0 p0
        { i0 with isDiffractive := false } KinePhaseSpace_t.kPSother = 0 ∧
      ValidProcess { i0 with isDiffractive := false } = false ∧
      ∀ j : Interaction,
        ValidProcess j = (j.skipProcessChk || j.isDiffractive) :=
  XSec_nondiffractive_eq_zero env0 p0 { i0 with isDiffractive := false }
    KinePhaseSpace_t.kPSother rfl rfl

/-- Claim C5: for every interaction accepted by the Validity Gate and
every phase-space tag, `XSec` with the assume-free-nucleon bit unset
equals `N` times `XSec` on the same interaction with the bit set, where
`N` is the proton count if the struck nucleon is a proton and the
neutron count otherwise.  (The external Jacobian is assumed not to
depend on the free-nucleon bookkeeping bit, as in the framework.) -/
theorem XSec_nuclear_scaling (env : Env) (p : ModelParams)
    (i : Interaction) (kps : KinePhaseSpace_t)
    (hv : ValidProcess i = true)
    (hJ : env.jacobian { i with assumeFreeNucleon := false }
            KinePhaseSpace_t.kPSxyfE kps
        = env.jacobian { i with assumeFreeNucleon := true }
            KinePhaseSpace_t.kPSxyfE kps) :
    XSec env p { i with assumeFreeNucleon := false } kps =
      (if i.initState.tgt.hitNucIsProton then (i.initState.tgt.Z : ℝ)
       else (i.initState.tgt.N : ℝ))
        * XSec env p { i with assumeFreeNucleon := true } kps := by
  have hv1 : ValidProcess { i with assumeFreeNucleon := false } = true := hv
  have hv2 : ValidProcess { i with assumeFreeNucleon := true } = true := hv
  rcases kps <;>
    simp [XSec, hv1, hv2, validKinematics_true, hJ,
      apply_ite (fun z : ℤ => (z : ℝ))] <;>
    cases i.initState.tgt.hitNucIsProton <;> simp <;> ring

/-- Witness for C5 at the concrete input `env0`, `p0`, `i0`. -/
theorem XSec_nuclear_scaling_witness :
    XSec env0 p0 { i0 with assumeFreeNucleon := false }
        KinePhaseSpace_t.kPSxyfE =
      (if i0.initState.tgt.hitNucIsProton then (i0.initState.tgt.Z : ℝ)
       else (i0.initState.tgt.N : ℝ))
        * XSec env0 p0 { i0 with assumeFreeNucleon := true }
            KinePhaseSpace_t.kPSxyfE :=
  XSec_nuclear_scaling env0 p0 i0 KinePhaseSpace_t.kPSxyfE rfl rfl

/-- Claim C6: for a fixed accepted interaction in the canonical
parameterization with the free-nucleon flag set, with `y ∈ (0,1)`,
`E > 0`, `Ma > 0`, a non-vanishing hadronic cross section at `y·E`, a
positive t-integral, and positive framework constants, increasing `x`
(hence `Q² = 2·x·y·M·E`) strictly decreases the returned value: for
`0 < x1 < x2`, `XSec` at `x2` is strictly below `XSec` at `x1`. -/
theorem XSec_strictAnti_in_x (env : Env) (p : ModelParams)
    (i : Interaction) (x1 x2 : ℝ)
    (hv : ValidProcess i = true) (hfree : i.assumeFreeNucleon = true)
    (hy0 : 0 < i.kine.y) (hy1 : i.kine.y < 1)
    (hE : 0 < i.initState.probeE) (hMa : 0 < p.fMa)
    (hs : env.sTot (i.kine.y * i.initState.probeE) ≠ 0)
    (hT : 0 < tIntegral env p.fBeta (i.kine.y * i.initState.probeE))
    (hG : 0 < env.kGF2) (hM : 0 < env.kNucleonMass) (hPi : 0 < env.kPi3)
    (hmpi : env.kPionMass ≠ 0)
    (hx1 : 0 < x1) (h12 : x1 < x2) :
    XSec env p (setXY i x2 i.kine.y) KinePhaseSpace_t.kPSxyfE <
      XSec env p (setXY i x1 i.kine.y) KinePhaseSpace_t.kPSxyfE := by
  have hv1 : ValidProcess (setXY i x2 i.kine.y) = true := hv
  have hv2 : ValidProcess (setXY i x1 i.kine.y) = true := hv
  have hf1 : (setXY i x2 i.kine.y).assumeFreeNucleon = true := hfree
  have hf2 : (setXY i x1 i.kine.y).assumeFreeNucleon = true := hfree
  rw [XSec_eval_canonical_free env p _ hv1 hf1,
    XSec_eval_canonical_free env p _ hv2 hf2]
  simp only [setXY_kine_x, setXY_kine_y, setXY_initState]
  set E := i.initState.probeE
  set y := i.kine.y
  have hGf : 0 < env.kGF2 * env.kNucleonMass / (16 * env.kPi3) :=
    div_pos (mul_pos hG hM) (by nlinarith)
  have hfp2 : 0 < (0.93 * env.kPionMass) ^ 2 :=
    pow_two_pos_of_ne_zero (mul_ne_zero (by norm_num) hmpi)
  have h1y : 0 < 1 - y := by linarith
  have hS : 0 < env.sTot (y * E) ^ 2 := pow_two_pos_of_ne_zero hs
  have hC : 0 <
      env.kGF2 * env.kNucleonMass / (16 * env.kPi3) * E
        * (0.93 * env.kPionMass) ^ 2 * (1 - y) :=
    mul_pos (mul_pos (mul_pos hGf hE) hfp2) h1y
  have hyME : 0 < 2 * y * env.kNucleonMass * E := by positivity
  have hQ1 : 0 < 2 * x1 * y * env.kNucleonMass * E := by positivity
  have hQlt : 2 * x1 * y * env.kNucleonMass * E <
      2 * x2 * y * env.kNucleonMass * E := by nlinarith
  have hma2 : 0 < p.fMa ^ 2 := pow_pos hMa 2
  have hden1 : 0 < p.fMa ^ 2 + 2 * x1 * y * env.kNucleonMass * E := by linarith
  have hdiv :
      p.fMa ^ 2 / (p.fMa ^ 2 + 2 * x2 * y * env.kNucleonMass * E) <
        p.fMa ^ 2 / (p.fMa ^ 2 + 2 * x1 * y * env.kNucleonMass * E) :=
    div_lt_div_of_pos_left hma2 hden1 (by linarith)
  have hdivnn :
      0 ≤ p.fMa ^ 2 / (p.fMa ^ 2 + 2 * x2 * y * env.kNucleonMass * E) :=
    div_nonneg hma2.le (by linarith)
  have hprop :
      (p.fMa ^ 2 / (p.fMa ^ 2 + 2 * x2 * y * env.kNucleonMass * E)) ^ 2 <
        (p.fMa ^ 2 / (p.fMa ^ 2 + 2 * x1 * y * env.kNucleonMass * E)) ^ 2 :=
    pow_lt_pow_left₀ hdiv hdivnn two_ne_zero
  have step1 := mul_lt_mul_of_pos_left hprop hC
  have step2 := mul_lt_mul_of_pos_right step1 hS
  exact mul_lt_mul_of_pos_right step2 hT

/-- Witness for C6 at the concrete input `env0`, `p0`, `i0`,
`x1 = 1/2`, `x2 = 1`. -/
theorem XSec_strictAnti_in_x_witness :
    XSec env0 p0 (setXY i0 1 i0.kine.y) KinePhaseSpace_t.kPSxyfE <
      XSec env0 p0 (setXY i0 (1 / 2) i0.kine.y) KinePhaseSpace_t.kPSxyfE :=
  XSec_strictAnti_in_x env0 p0 i0 (1 / 2) 1 rfl rfl
    (by norm_num [i0]) (by norm_num [i0]) (by norm_num [i0])
    (by norm_num [p0]) (by norm_num [env0])
    (tIntegral_pos_of_lt env0 (by norm_num [p0]) (by norm_num [env0, i0]))
    (by norm_num [env0]) (by norm_num [env0]) (by norm_num [env0])
    (by norm_num [env0]) (by norm_num) (by norm_num)

/-- Claim C7: for every interaction with `0 < x`, `0 < y ≤ 1`, slope
`β > 0`, energy `E > 0`, non-negative nucleon counts, non-negative
framework constants and (when a non-canonical parameterization is
requested) a positive Jacobian, `XSec` returns a non-negative value;
and it returns exactly `0` for rejected inputs — never negative. -/
theorem XSec_nonneg (env : Env) (p : ModelParams) (i : Interaction)
    (kps : KinePhaseSpace_t)
    (hx : 0 < i.kine.x) (hy0 : 0 < i.kine.y) (hy1 : i.kine.y ≤ 1)
    (hb : 0 < p.fBeta) (hE : 0 < i.initState.probeE)
    (hG : 0 ≤ env.kGF2) (hM : 0 ≤ env.kNucleonMass) (hPi : 0 < env.kPi3)
    (hZ : 0 ≤ i.initState.tgt.Z) (hN : 0 ≤ i.initState.tgt.N)
    (hJ : kps ≠ KinePhaseSpace_t.kPSxyfE →
      0 < env.jacobian i KinePhaseSpace_t.kPSxyfE kps) :
    0 ≤ XSec env p i kps ∧
      ∀ (j : Interaction) (kps2 : KinePhaseSpace_t),
        ValidProcess j = false → XSec env p j kps2 = 0 := by
  constructor
  · by_cases hv : ValidProcess i = true
    · rw [XSec_eval env p i kps hv]
      have hGf : 0 ≤ env.kGF2 * env.kNucleonMass / (16 * env.kPi3) :=
        div_nonneg (mul_nonneg hG hM) (by nlinarith)
      have hbase : 0 ≤
          env.kGF2 * env.kNucleonMass / (16 * env.kPi3) * i.initState.probeE
            * (0.93 * env.kPionMass) ^ 2 * (1 - i.kine.y)
            * (p.fMa ^ 2 /
                (p.fMa ^ 2 +
                  2 * i.kine.x * i.kine.y * env.kNucleonMass *
                    i.initState.probeE)) ^ 2
            * env.sTot (i.kine.y * i.initState.probeE) ^ 2 :=
        mul_nonneg
          (mul_nonneg
            (mul_nonneg (mul_nonneg (mul_nonneg hGf hE.le) (sq_nonneg _))
              (by linarith))
            (sq_nonneg _))
          (sq_nonneg _)
      have hf2 : 0 ≤
          (if kps = KinePhaseSpace_t.kPSxyfE then
            tIntegral env p.fBeta (i.kine.y * i.initState.probeE)
           else 1) := by
        split_ifs
        · exact tIntegral_nonneg env _ hb
        · exact zero_le_one
      have hf3 : 0 ≤
          (if kps ≠ KinePhaseSpace_t.kPSxyfE then
            env.jacobian i KinePhaseSpace_t.kPSxyfE kps
           else 1) := by
        split_ifs with h
        · exact (hJ h).le
        · exact zero_le_one
      have hf4 : 0 ≤
          (if i.assumeFreeNucleon then (1 : ℝ)
           else
             ((if i.initState.tgt.hitNucIsProton then i.initState.tgt.Z
               else i.initState.tgt.N : ℤ) : ℝ)) := by
        split_ifs
        · exact zero_le_one
        · exact_mod_cast hZ
        · exact_mod_cast hN
      exact mul_nonneg (mul_nonneg (mul_nonneg hbase hf2) hf3) hf4
    · have hv' : ValidProcess i = false := by
        cases h : ValidProcess i
        · rfl
        · exact absurd h hv
      simp [XSec, hv']
  · intro j kps2 hvp
    simp [XSec, hvp]

/-- Witness for C7 at the concrete input `env0`, `p0`, `i0` in the
canonical phase space. -/
theorem XSec_nonneg_witness :
    0 ≤ XSec env0 p0 i0 KinePhaseSpace_t.kPSxyfE ∧
      ∀ (j : Interaction) (kps2 : KinePhaseSpace_t),
        ValidProcess j = false → XSec env0 p0 j kps2 = 0 :=
  XSec_nonneg env0 p0 i0 KinePhaseSpace_t.kPSxyfE
    (by norm_num [i0]) (by norm_num [i0]) (by norm_num [i0])
    (by norm_num [p0]) (by norm_num [i0])
    (by norm_num [env0]) (by norm_num [env0]) (by norm_num [env0])
    (by norm_num [i0]) (by norm_num [i0])
    (fun h => absurd rfl h)

/-- Claim C3: `Integral` returns exactly `0`, without evaluating the
differential formula at any grid point (the state-passing integrator
returns `(0, i)` with the interaction untouched), whenever the y-range
is empty — equivalently, whenever the incident energy is at or below
the reaction threshold `(mπ + mμ)/(1 − 2ε)`. -/
theorem Integral_below_threshold_eq_zero (env : Env) (p : ModelParams)
    (i : Interaction) (hE : 0 < i.initState.probeE)
    (heps : 2 * env.kASmallNum < 1) :
    (yMax env i.initState.probeE ≤ yMin env i.initState.probeE ↔
      i.initState.probeE ≤
        (env.kPionMass + env.kMuonMass) / (1 - 2 * env.kASmallNum)) ∧
    (yMax env i.initState.probeE ≤ yMin env i.initState.probeE →
      IntegralS env p i = (0, i) ∧ Integral env p i = 0) := by
  set E := i.initState.probeE with hEdef
  have h1 : 0 < 1 - 2 * env.kASmallNum := by linarith
  constructor
  · unfold yMax yMin
    rw [le_div_iff₀ h1]
    constructor
    · intro hy
      have h3 : 1 - 2 * env.kASmallNum ≤
          (env.kPionMass + env.kMuonMass) / E := by
        rw [add_div]; linarith
      have h4 := (le_div_iff₀ hE).mp h3
      nlinarith
    · intro hth
      have h3 : (1 - 2 * env.kASmallNum) * E ≤
          env.kPionMass + env.kMuonMass := by nlinarith
      have h4 := (le_div_iff₀ hE).mpr h3
      rw [add_div] at h4
      linarith
  · intro hyy
    constructor
    · simp [IntegralS, ← hEdef, hyy]
    · simp [Integral, IntegralS, ← hEdef, hyy]

/-- Witness for C3 at `env0`, `p0` and a probe energy of 1, below the
threshold `(1 + 1)/(1 − 2/100)`. -/
theorem Integral_below_threshold_eq_zero_witness :
    (yMax env0
        ({ i0 with
          initState := { probeE := 1, tgt := i0.initState.tgt } } :
            Interaction).initState.probeE ≤
      yMin env0
        ({ i0 with
          initState := { probeE := 1, tgt := i0.initState.tgt } } :
            Interaction).initState.probeE ↔
      ({ i0 with
          initState := { probeE := 1, tgt := i0.initState.tgt } } :
            Interaction).initState.probeE ≤
        (env0.kPionMass + env0.kMuonMass) / (1 - 2 * env0.kASmallNum)) ∧
    (yMax env0
        ({ i0 with
          initState := { probeE := 1, tgt := i0.initState.tgt } } :
            Interaction).initState.probeE ≤
      yMin env0
        ({ i0 with
          initState := { probeE := 1, tgt := i0.initState.tgt } } :
            Interaction).initState.probeE →
      IntegralS env0 p0
          { i0 with initState := { probeE := 1, tgt := i0.initState.tgt } } =
        (0,
          { i0 with
            initState := { probeE := 1, tgt := i0.initState.tgt } }) ∧
      Integral env0 p0
          { i0 with initState := { probeE := 1, tgt := i0.initState.tgt } } =
        0) :=
  Integral_below_threshold_eq_zero env0 p0
    { i0 with initState := { probeE := 1, tgt := i0.initState.tgt } }
    (by norm_num) (by norm_num [env0])

/-- A list-indexed sum over `List.range` is a `Finset.range` sum
(shared helper). -/
lemma list_range_map_sum (f : ℕ → ℝ) (n : ℕ) :
    ((List.range n).map f).sum = ∑ k ∈ Finset.range n, f k := by
  induction n with
  | zero => simp
  | succ m ih => rw [List.range_succ, Finset.sum_range_succ]; simp [ih]

/-- Value and state of the inner (`iy`) loop of the integrator: starting
from any accumulator and any interaction state that agrees with `i` off
its kinematics, the loop adds the row sum and leaves a state that still
agrees with `i` off its kinematics (shared helper). -/
lemma innerLoop_foldl (env : Env) (p : ModelParams) (E xc : ℝ)
    (i : Interaction) (l : List ℕ) :
    ∀ q : ℝ × Interaction, (∀ u v, setXY q.2 u v = setXY i u v) →
      (l.foldl (innerLoop env p E xc) q).1 =
          q.1 + (l.map (fun iy =>
            dxGrid env * dyGrid env E *
              XSec env p (setXY i xc (yGrid env E iy))
                KinePhaseSpace_t.kPSxyfE)).sum
        ∧ ∀ u v, setXY (l.foldl (innerLoop env p E xc) q).2 u v
            = setXY i u v := by
  induction l with
  | nil =>
    intro q hs
    exact ⟨by simp, hs⟩
  | cons iy rest ih =>
    intro q hs
    rw [List.foldl_cons]
    have hstep : innerLoop env p E xc q iy =
        (q.1 + dxGrid env * dyGrid env E *
            XSec env p (setXY i xc (yGrid env E iy))
              KinePhaseSpace_t.kPSxyfE,
          setXY i xc (yGrid env E iy)) := by
      simp [innerLoop, hs]
    rw [hstep]
    obtain ⟨hval, hst⟩ := ih
      (q.1 + dxGrid env * dyGrid env E *
        XSec env p (setXY i xc (yGrid env E iy)) KinePhaseSpace_t.kPSxyfE,
       setXY i xc (yGrid env E iy))
      (fun u v => setXY_setXY i xc (yGrid env E iy) u v)
    refine ⟨?_, hst⟩
    rw [hval, List.map_cons, List.sum_cons]
    ring

/-- Value and state of the outer (`ix`) loop of the integrator
(shared helper). -/
lemma outerLoop_foldl (env : Env) (p : ModelParams) (E : ℝ)
    (i : Interaction) (l : List ℕ) :
    ∀ q : ℝ × Interaction, (∀ u v, setXY q.2 u v = setXY i u v) →
      ((l.foldl (fun acc ix =>
          (List.range nGrid).foldl (innerLoop env p E (xGrid env ix)) acc)
        q).1 =
          q.1 + (l.map (fun ix =>
            ((List.range nGrid).map (fun iy =>
              dxGrid env * dyGrid env E *
                XSec env p (setXY i (xGrid env ix) (yGrid env E iy))
                  KinePhaseSpace_t.kPSxyfE)).sum)).sum)
        ∧ ∀ u v, setXY (l.foldl (fun acc ix =>
            (List.range nGrid).foldl (innerLoop env p E (xGrid env ix)) acc)
          q).2 u v = setXY i u v := by
  induction l with
  | nil =>
    intro q hs
    exact ⟨by simp, hs⟩
  | cons ix rest ih =>
    intro q hs
    rw [List.foldl_cons]
    obtain ⟨hval, hst⟩ :=
      innerLoop_foldl env p E (xGrid env ix) i (List.range nGrid) q hs
    obtain ⟨hval2, hst2⟩ := ih
      ((List.range nGrid).foldl (innerLoop env p E (xGrid env ix)) q) hst
    refine ⟨?_, hst2⟩
    rw [hval2, hval, List.map_cons, List.sum_cons]
    ring

/-- Claim C2: for every interaction whose y-range is non-empty,
`Integral` returns the double sum over the 300×300 uniform grid
(both endpoints included) of `dx·dy·XSec` evaluated in the canonical
parameterization at the grid point `(x.min + ix·dx, y.min + iy·dy)`,
with `dx = (x.max−x.min)/(300−1)`, `dy = (y.max−y.min)/(300−1)`,
`x ∈ (ε, 1−ε)` and the interaction's x and y fields overwritten at each
grid point. -/
theorem Integral_eq_grid_sum (env : Env) (p : ModelParams)
    (i : Interaction)
    (h : yMin env i.initState.probeE < yMax env i.initState.probeE) :
    Integral env p i =
      ∑ ix ∈ Finset.range nGrid, ∑ iy ∈ Finset.range nGrid,
        dxGrid env * dyGrid env i.initState.probeE *
          XSec env p
            (setXY i (xGrid env ix) (yGrid env i.initState.probeE iy))
            KinePhaseSpace_t.kPSxyfE := by
  obtain ⟨hval, _⟩ := outerLoop_foldl env p i.initState.probeE i
    (List.range nGrid) (0, i) (fun u v => rfl)
  simp only [Integral, IntegralS, if_neg (not_le.mpr h)]
  rw [hval]
  simp only [zero_add, list_range_map_sum]

/-- Witness for C2 at the concrete input `env0`, `p0`, `i0`
(probe energy 4, non-empty y-range). -/
theorem Integral_eq_grid_sum_witness :
    yMin env0 i0.initState.probeE < yMax env0 i0.initState.probeE ∧
    Integral env0 p0 i0 =
      ∑ ix ∈ Finset.range nGrid, ∑ iy ∈ Finset.range nGrid,
        dxGrid env0 * dyGrid env0 i0.initState.probeE *
          XSec env0 p0
            (setXY i0 (xGrid env0 ix) (yGrid env0 i0.initState.probeE iy))
            KinePhaseSpace_t.kPSxyfE :=
  ⟨by norm_num [yMin, yMax, env0, i0],
    Integral_eq_grid_sum env0 p0 i0
      (by norm_num [yMin, yMax, env0, i0])⟩

/-- Two interactions that agree after every kinematics overwrite agree
on every non-kinematic field (shared helper). -/
lemma frame_of_setXY_eq {s i : Interaction}
    (h : ∀ u v, setXY s u v = setXY i u v) :
    s.initState = i.initState ∧ s.isDiffractive = i.isDiffractive ∧
      s.skipProcessChk = i.skipProcessChk ∧
      s.skipKinematicChk = i.skipKinematicChk ∧
      s.assumeFreeNucleon = i.assumeFreeNucleon := by
  have h0 := h 0 0
  have h1 := congrArg Interaction.initState h0
  have h2 := congrArg Interaction.isDiffractive h0
  have h3 := congrArg Interaction.skipProcessChk h0
  have h4 := congrArg Interaction.skipKinematicChk h0
  have h5 := congrArg Interaction.assumeFreeNucleon h0
  exact ⟨h1, h2, h3, h4, h5⟩

/-- Claim C9: `XSec` reads but never modifies the interaction (the
state-passing form of the `const` call returns it unchanged), and
`Integral` modifies only the kinematic fields x and y: the initial
state, process type and flags of the final interaction state are those
of the input. -/
theorem XSec_pure_and_Integral_frame :
    (∀ (env : Env) (p : ModelParams) (kps : KinePhaseSpace_t)
        (i : Interaction), (XSecS env p kps i).2 = i) ∧
    ∀ (env : Env) (p : ModelParams) (i : Interaction),
      (IntegralS env p i).2.initState = i.initState ∧
      (IntegralS env p i).2.isDiffractive = i.isDiffractive ∧
      (IntegralS env p i).2.skipProcessChk = i.skipProcessChk ∧
      (IntegralS env p i).2.skipKinematicChk = i.skipKinematicChk ∧
      (IntegralS env p i).2.assumeFreeNucleon = i.assumeFreeNucleon := by
  refine ⟨fun env p kps i => rfl, fun env p i => ?_⟩
  by_cases h : yMax env i.initState.probeE ≤ yMin env i.initState.probeE
  · simp [IntegralS, h]
  · obtain ⟨_, hst⟩ := outerLoop_foldl env p i.initState.probeE i
      (List.range nGrid) (0, i) (fun u v => rfl)
    simp only [IntegralS, if_neg h]
    exact frame_of_setXY_eq hst

/-- Claim C8: for every incident energy above threshold (non-empty
y-range), every grid point the integrator writes lies inside the
bounds: `ε ≤ x ≤ 1−ε` and `y.min ≤ y ≤ y.max`, hence `0 < x < 1`,
`0 < y < 1`, the derived momentum transfer `Q² = 2·x·y·M·E` is
non-negative and the pion energy `y·E` is positive. -/
theorem grid_points_in_bounds (env : Env) (E : ℝ) (ix iy : ℕ)
    (hix : ix < nGrid) (hiy : iy < nGrid)
    (heps : 0 < env.kASmallNum) (heps2 : 2 * env.kASmallNum < 1)
    (hE : 0 < E) (hmpi : 0 ≤ env.kPionMass) (hmmu : 0 ≤ env.kMuonMass)
    (hth : yMin env E < yMax env E) (hM : 0 ≤ env.kNucleonMass) :
    (env.kASmallNum ≤ xGrid env ix ∧ xGrid env ix ≤ 1 - env.kASmallNum) ∧
    (yMin env E ≤ yGrid env E iy ∧ yGrid env E iy ≤ yMax env E) ∧
    (0 < xGrid env ix ∧ xGrid env ix < 1) ∧
    (0 < yGrid env E iy ∧ yGrid env E iy < 1) ∧
    0 ≤ 2 * xGrid env ix * yGrid env E iy * env.kNucleonMass * E ∧
    0 < yGrid env E iy * E := by
  have hix299 : (ix : ℝ) ≤ 299 := by
    have : ix ≤ 299 := Nat.lt_succ_iff.mp (by simpa [nGrid] using hix)
    exact_mod_cast this
  have hiy299 : (iy : ℝ) ≤ 299 := by
    have : iy ≤ 299 := Nat.lt_succ_iff.mp (by simpa [nGrid] using hiy)
    exact_mod_cast this
  have hixnn : (0 : ℝ) ≤ (ix : ℝ) := Nat.cast_nonneg ix
  have hiynn : (0 : ℝ) ≤ (iy : ℝ) := Nat.cast_nonneg iy
  have hdx : dxGrid env = (1 - 2 * env.kASmallNum) / 299 := by
    unfold dxGrid xMax xMin
    norm_num [nGrid]
    ring
  have hdxnn : 0 ≤ dxGrid env := by
    rw [hdx]; exact div_nonneg (by linarith) (by norm_num)
  have hdy : dyGrid env E = (yMax env E - yMin env E) / 299 := by
    unfold dyGrid
    norm_num [nGrid]
  have hdynn : 0 ≤ dyGrid env E := by
    rw [hdy]; exact div_nonneg (by linarith) (by norm_num)
  have hxlo : env.kASmallNum ≤ xGrid env ix := by
    unfold xGrid xMin
    nlinarith [mul_nonneg hixnn hdxnn]
  have hxup : xGrid env ix ≤ 1 - env.kASmallNum := by
    unfold xGrid xMin
    have h1 : (ix : ℝ) * dxGrid env ≤ 299 * dxGrid env :=
      mul_le_mul_of_nonneg_right hix299 hdxnn
    have h2 : (299 : ℝ) * dxGrid env = 1 - 2 * env.kASmallNum := by
      rw [hdx]; ring
    linarith
  have hylo : yMin env E ≤ yGrid env E iy := by
    unfold yGrid
    nlinarith [mul_nonneg hiynn hdynn]
  have hyup : yGrid env E iy ≤ yMax env E := by
    unfold yGrid
    have h1 : (iy : ℝ) * dyGrid env E ≤ 299 * dyGrid env E :=
      mul_le_mul_of_nonneg_right hiy299 hdynn
    have h2 : (299 : ℝ) * dyGrid env E = yMax env E - yMin env E := by
      rw [hdy]; ring
    linarith
  have hyminpos : 0 < yMin env E := by
    unfold yMin
    have : 0 ≤ env.kPionMass / E := div_nonneg hmpi hE.le
    linarith
  have hymaxlt : yMax env E < 1 := by
    unfold yMax
    have : 0 ≤ env.kMuonMass / E := div_nonneg hmmu hE.le
    linarith
  have hx0 : 0 < xGrid env ix := lt_of_lt_of_le heps hxlo
  have hx1 : xGrid env ix < 1 := by linarith
  have hy0 : 0 < yGrid env E iy := lt_of_lt_of_le hyminpos hylo
  have hy1 : yGrid env E iy < 1 := lt_of_le_of_lt hyup hymaxlt
  refine ⟨⟨hxlo, hxup⟩, ⟨hylo, hyup⟩, ⟨hx0, hx1⟩, ⟨hy0, hy1⟩, ?_, ?_⟩
  · have h2x : (0 : ℝ) ≤ 2 * xGrid env ix := by linarith
    exact mul_nonneg
      (mul_nonneg (mul_nonneg h2x hy0.le) hM) hE.le
  · exact mul_pos hy0 hE

/-- Witness for C8 at `env0`, `E = 4`, grid point `(0, 0)`. -/
theorem grid_points_in_bounds_witness :
    (env0.kASmallNum ≤ xGrid env0 0 ∧ xGrid env0 0 ≤ 1 - env0.kASmallNum) ∧
    (yMin env0 4 ≤ yGrid env0 4 0 ∧ yGrid env0 4 0 ≤ yMax env0 4) ∧
    (0 < xGrid env0 0 ∧ xGrid env0 0 < 1) ∧
    (0 < yGrid env0 4 0 ∧ yGrid env0 4 0 < 1) ∧
    0 ≤ 2 * xGrid env0 0 * yGrid env0 4 0 * env0.kNucleonMass * 4 ∧
    0 < yGrid env0 4 0 * 4 :=
  grid_points_in_bounds env0 4 0 0 (by norm_num [nGrid]) (by norm_num [nGrid])
    (by norm_num [env0]) (by norm_num [env0]) (by norm_num)
    (by norm_num [env0]) (by norm_num [env0])
    (by norm_num [yMin, yMax, env0]) (by norm_num [env0])

/-- Counterexample to claim C10 as stated: at the boundary pion energy
`Eπ = mπ²/(2·√99)` — an energy that is "at least `mπ²/(2·√99)`" — the
lower t-limit equals the cutoff (`tmin = 99`), so the vanished-t-range
guard IS triggered and the t-integral is `0`, not strictly positive
(here with slope `β = 1 > 0` and the environment `env0`). -/
theorem tIntegral_boundary_counterexample :
    env0.kPionMass ^ 2 / (2 * Real.sqrt 99) ≤
        env0.kPionMass ^ 2 / (2 * Real.sqrt 99) ∧
      ¬ ((0.5 * env0.kPionMass ^ 2 /
            (env0.kPionMass ^ 2 / (2 * Real.sqrt 99))) ^ 2 < 99) ∧
      tIntegral env0 1 (env0.kPionMass ^ 2 / (2 * Real.sqrt 99)) = 0 := by
  have hs : (0 : ℝ) < Real.sqrt 99 := Real.sqrt_pos.mpr (by norm_num)
  have hs2 : Real.sqrt 99 ^ 2 = 99 := Real.sq_sqrt (by norm_num)
  have hkey : (0.5 * env0.kPionMass ^ 2 /
      (env0.kPionMass ^ 2 / (2 * Real.sqrt 99))) ^ 2 = 99 := by
    have h1 : env0.kPionMass = 1 := rfl
    rw [h1, one_pow]
    have h2 : (0.5 : ℝ) * 1 / (1 / (2 * Real.sqrt 99)) = Real.sqrt 99 := by
      rw [div_div_eq_mul_div, div_one]
      ring
    rw [h2, hs2]
  refine ⟨le_refl _, ?_, ?_⟩
  · rw [hkey]; norm_num
  · rw [tIntegral_eq, if_neg (by rw [hkey]; norm_num)]

/-- Claim C10 (amended): for every canonical-parameterization
evaluation in which the pion energy is strictly greater than
`mπ²/(2·√99)` — which holds at every integrator grid point with
physical constants, since there `Eπ > mπ > mπ²/(2·√99)` — the
vanished-t-range guard is never triggered: `tmin < 99`, the t-integral
is the closed form `(exp(−β·tmin) − exp(−β·99))/β`, and for `β > 0`
this factor is strictly positive. -/
theorem tIntegral_guard_closed_form_pos (env : Env) (b Epi : ℝ)
    (hb : 0 < b)
    (h : env.kPionMass ^ 2 / (2 * Real.sqrt 99) < Epi) :
    (0.5 * env.kPionMass ^ 2 / Epi) ^ 2 < 99 ∧
    tIntegral env b Epi =
      (Real.exp (-b * (0.5 * env.kPionMass ^ 2 / Epi) ^ 2) -
        Real.exp (-b * 99)) / b ∧
    0 < tIntegral env b Epi := by
  have hs : (0 : ℝ) < Real.sqrt 99 := Real.sqrt_pos.mpr (by norm_num)
  have hs2 : Real.sqrt 99 ^ 2 = 99 := Real.sq_sqrt (by norm_num)
  have hm2 : 0 ≤ env.kPionMass ^ 2 := sq_nonneg _
  have htmin : (0.5 * env.kPionMass ^ 2 / Epi) ^ 2 < 99 := by
    rcases eq_or_lt_of_le hm2 with hz | hpos
    · rw [← hz]
      norm_num
    · have hEpi : 0 < Epi := lt_trans (div_pos hpos (by positivity)) h
      have hroot : 0.5 * env.kPionMass ^ 2 / Epi < Real.sqrt 99 := by
        rw [div_lt_iff₀ hEpi]
        have h2 := (div_lt_iff₀ (show (0:ℝ) < 2 * Real.sqrt 99 by positivity)).mp h
        nlinarith
      have hrootnn : 0 ≤ 0.5 * env.kPionMass ^ 2 / Epi := by positivity
      calc (0.5 * env.kPionMass ^ 2 / Epi) ^ 2
          < Real.sqrt 99 ^ 2 := pow_lt_pow_left₀ hroot hrootnn two_ne_zero
        _ = 99 := hs2
  exact ⟨htmin, by rw [tIntegral_eq, if_pos htmin],
    tIntegral_pos_of_lt env hb htmin⟩

/-- Witness for the amended C10 at `env0`, `β = 1`, `Eπ = 2`. -/
theorem tIntegral_guard_closed_form_pos_witness :
    (0.5 * env0.kPionMass ^ 2 / 2) ^ 2 < 99 ∧
    tIntegral env0 1 2 =
      (Real.exp (-1 * (0.5 * env0.kPionMass ^ 2 / 2) ^ 2) -
        Real.exp (-1 * 99)) / 1 ∧
    0 < tIntegral env0 1 2 :=
  tIntegral_guard_closed_form_pos env0 1 2 (by norm_num)
    (by
      have hs : (0 : ℝ) < Real.sqrt 99 := Real.sqrt_pos.mpr (by norm_num)
      have hs2 : Real.sqrt 99 ^ 2 = 99 := Real.sq_sqrt (by norm_num)
      have h1 : env0.kPionMass ^ 2 = 1 := by norm_num [env0]
      rw [h1, div_lt_iff₀ (by positivity)]
      nlinarith)

end ReinDFR
